import Mathlib

/-!
Shallow embedding of the repository fragment:

* `src/otx/algo/detection/backbones/presnet.py` — the PResNet backbone
  (stem convolution, staged bottleneck/basic residual blocks, frozen
  batch-normalization, stage pruning/freezing);
* `tests/perf/test_semantic_segmentation.py` — the semantic-segmentation
  performance-benchmark test parametrization.

Python `nn.Module` objects are modelled as Lean structures mirroring the
attributes the constructors set; the tensor primitives (convolution,
batch normalization, pooling, addition, activation) are uninterpreted,
collected in an `Interp` record, so the forward passes become explicit
dataflow over an abstract tensor type.  Fallible construction (dict and
list indexing in `__init__`) returns `Option`.  Each learnable parameter
is represented by its `requires_grad` flag (a `Bool`).
-/

namespace Presnet

/-- Configuration dictionaries (`act_cfg`, `norm_cfg`) are passed through
unchanged to the framework layers; we model them as association lists. -/
abbrev Cfg := List (String × String)

/-- An `nn.Conv2d` layer: its constructor arguments plus the
`requires_grad` flags of its weight (and optional bias) parameters. -/
structure Conv2d where
  ch_in : Nat
  ch_out : Nat
  kernel_size : Nat
  stride : Nat
  padding : Nat
  bias : Bool
  weight_rg : Bool
  bias_rg : Bool

/-- The normalization layer inside a `ConvModule`: a live `nn.BatchNorm2d`
(with the `requires_grad` flags of its affine parameters) or a
`FrozenBatchNorm2d` (buffers only, no parameters). -/
inductive Norm where
  | batchNorm2d (num_features : Nat) (weight_rg bias_rg : Bool)
  | frozenBatchNorm2d (num_features : Nat)

/-- An `nn.AvgPool2d` layer (no parameters). -/
structure AvgPool2d where
  kernel_size : Nat
  stride : Nat
  padding : Nat
  ceil_mode : Bool

/-- The activation attribute: `nn.Identity() if act_cfg is None else
build_activation_layer(act_cfg)`. -/
inductive ActLayer where
  | identity
  | activation (cfg : Cfg)

/-- Modelled from the spec: `build_activation_layer` from
`otx.algo.modules` is not under src/; the spec describes activations as a
framework primitive built from the given configuration. -/
def buildActivationLayer (cfg : Cfg) : ActLayer :=
  ActLayer.activation cfg

/-- Modelled from the spec: `otx.algo.modules.ConvModule` is not under
src/; per the spec it is composed of the framework primitives
convolution, batch normalization and activation, applied in that order,
each present as directed by `act_cfg` / `norm_cfg`. -/
structure ConvModule where
  conv : Conv2d
  norm : Option Norm
  act : Option Cfg

/-- Modelled from the spec: construction of a `ConvModule`
(`ch_in, ch_out, kernel_size, stride` positional, explicit `padding`,
`act_cfg`, `norm_cfg`).  A batch-normalization child is built over
`ch_out` features when `norm_cfg` is given; the convolution bias is
present exactly when no normalization follows. -/
def convModule (ch_in ch_out kernel_size stride padding : Nat)
    (act_cfg norm_cfg : Option Cfg) : ConvModule :=
  { conv :=
      { ch_in := ch_in, ch_out := ch_out, kernel_size := kernel_size,
        stride := stride, padding := padding, bias := norm_cfg.isNone,
        weight_rg := true, bias_rg := true }
    norm := norm_cfg.map (fun _ => Norm.batchNorm2d ch_out true true)
    act := act_cfg }

/-- The `self.short` attribute of a residual block: a plain 1×1
projection `ConvModule`, or (variant "d" with stride 2) an
`nn.Sequential` of an `AvgPool2d` followed by the projection. -/
inductive Short where
  | proj (conv : ConvModule)
  | poolProj (pool : AvgPool2d) (conv : ConvModule)

/-- `BasicBlock` attributes as set by `BasicBlock.__init__`; `short` is
`none` exactly when the attribute is never assigned (shortcut case). -/
structure BasicBlock where
  shortcut : Bool
  short : Option Short
  branch2a : ConvModule
  branch2b : ConvModule
  act : ActLayer

/-- `BasicBlock.__init__(ch_in, ch_out, stride, shortcut, act_cfg,
variant, norm_cfg)`. -/
def BasicBlock.init (ch_in ch_out stride : Nat) (shortcut : Bool)
    (act_cfg : Option Cfg) (variant : String) (norm_cfg : Option Cfg) :
    BasicBlock :=
  { shortcut := shortcut
    short :=
      if shortcut then none
      else if variant = "d" ∧ stride = 2 then
        some (Short.poolProj
          { kernel_size := 2, stride := 2, padding := 0, ceil_mode := true }
          (convModule ch_in ch_out 1 1 0 none norm_cfg))
      else
        some (Short.proj (convModule ch_in ch_out 1 stride 0 none norm_cfg))
    branch2a := convModule ch_in ch_out 3 stride 1 act_cfg norm_cfg
    branch2b := convModule ch_out ch_out 3 1 1 none norm_cfg
    act :=
      match act_cfg with
      | none => ActLayer.identity
      | some cfg => buildActivationLayer cfg }

/-- `BottleNeck` attributes as set by `BottleNeck.__init__`. -/
structure BottleNeck where
  branch2a : ConvModule
  branch2b : ConvModule
  branch2c : ConvModule
  shortcut : Bool
  short : Option Short
  act : ActLayer

/-- `BottleNeck.expansion = 4`. -/
def BottleNeck.expansion : Nat := 4

/-- `BottleNeck.__init__(ch_in, ch_out, stride, shortcut, act_cfg,
variant, norm_cfg)`. -/
def BottleNeck.init (ch_in ch_out stride : Nat) (shortcut : Bool)
    (act_cfg : Option Cfg) (variant : String) (norm_cfg : Option Cfg) :
    BottleNeck :=
  let strides : Nat × Nat := if variant = "a" then (stride, 1) else (1, stride)
  let width := ch_out
  { branch2a := convModule ch_in width 1 strides.1 0 act_cfg norm_cfg
    branch2b := convModule width width 3 strides.2 1 act_cfg norm_cfg
    branch2c := convModule width (ch_out * BottleNeck.expansion) 1 1 0 none norm_cfg
    shortcut := shortcut
    short :=
      if shortcut then none
      else if variant = "d" ∧ stride = 2 then
        some (Short.poolProj
          { kernel_size := 2, stride := 2, padding := 0, ceil_mode := true }
          (convModule ch_in (ch_out * BottleNeck.expansion) 1 1 0 none norm_cfg))
      else
        some (Short.proj
          (convModule ch_in (ch_out * BottleNeck.expansion) 1 stride 0 none norm_cfg))
    act :=
      match act_cfg with
      | none => ActLayer.identity
      | some cfg => buildActivationLayer cfg }

/-- The block class chosen by `PResNet.__init__`
(`BottleNeck if depth >= 50 else BasicBlock`). -/
inductive BlockType where
  | basicBlock
  | bottleNeck

/-- `block.expansion` of the chosen class. -/
def BlockType.expansion : BlockType → Nat
  | .basicBlock => 1
  | .bottleNeck => BottleNeck.expansion

/-- A constructed residual block of either class. -/
inductive Block where
  | basic (b : BasicBlock)
  | bottle (b : BottleNeck)

/-- Calling the chosen block class with the loop's arguments. -/
def BlockType.make (bt : BlockType) (ch_in ch_out stride : Nat)
    (shortcut : Bool) (act_cfg : Option Cfg) (variant : String)
    (norm_cfg : Option Cfg) : Block :=
  match bt with
  | .basicBlock => Block.basic (BasicBlock.init ch_in ch_out stride shortcut act_cfg variant norm_cfg)
  | .bottleNeck => Block.bottle (BottleNeck.init ch_in ch_out stride shortcut act_cfg variant norm_cfg)

/-- `Blocks` holds its `nn.ModuleList` of constructed blocks. -/
structure Blocks where
  blocks : List Block

/-- The construction loop of `Blocks.__init__`: for each `i` in
`range(count)` append `block(ch_in, ch_out, stride=2 if i == 0 and
stage_num != 2 else 1, shortcut=False if i == 0 else True, ...)`, and
after `i == 0` update `ch_in = ch_out * block.expansion`.  Arguments:
current index `i`, current `ch_in`, remaining `count`. -/
def blocksLoop (bt : BlockType) (ch_out stage_num : Nat)
    (act_cfg : Option Cfg) (variant : String) (norm_cfg : Option Cfg) :
    Nat → Nat → Nat → List Block
  | _, _, 0 => []
  | i, ch_in, Nat.succ n =>
    let b := bt.make ch_in ch_out
      (if i = 0 ∧ stage_num ≠ 2 then 2 else 1)
      (i != 0) act_cfg variant norm_cfg
    let ch_in2 := if i = 0 then ch_out * bt.expansion else ch_in
    b :: blocksLoop bt ch_out stage_num act_cfg variant norm_cfg (i + 1) ch_in2 n

/-- `Blocks.__init__(block, ch_in, ch_out, count, stage_num, act_cfg,
variant, norm_cfg)`. -/
def Blocks.init (bt : BlockType) (ch_in ch_out count stage_num : Nat)
    (act_cfg : Option Cfg) (variant : String) (norm_cfg : Option Cfg) :
    Blocks :=
  { blocks := blocksLoop bt ch_out stage_num act_cfg variant norm_cfg 0 ch_in count }

/-- `ResNet_cfg`: the per-depth block counts; `none` models the
`KeyError` a missing key raises. -/
def ResNet_cfg (depth : Nat) : Option (List Nat) :=
  if depth = 18 then some [2, 2, 2, 2]
  else if depth = 34 then some [3, 4, 6, 3]
  else if depth = 50 then some [3, 4, 6, 3]
  else if depth = 101 then some [3, 4, 23, 3]
  else none

/-- The `PResNet` attributes set by `__init__` (the constant
`_out_channels` / `_out_strides` locals are recomputed where needed). -/
structure PResNet where
  conv1 : List (String × ConvModule)
  res_layers : List Blocks
  return_idx : List Nat
  out_channels : List Nat
  out_strides : List Nat

/-- `ch_out_list = [64, 128, 256, 512]` local of `PResNet.__init__`. -/
def ch_out_list : List Nat := [64, 128, 256, 512]

/-- The residual-stage construction loop of `PResNet.__init__`:
`for i in range(num_stages): append Blocks(block, ch_in, ch_out_list[i],
block_nums[i], i + 2, ...); ch_in = block.expansion * ch_out_list[i]`.
List indexing out of range (the `IndexError` case) yields `none`.
Arguments: current `ch_in`, current index `i`, remaining stage count. -/
def stagesLoop (bt : BlockType) (act_cfg : Option Cfg) (variant : String)
    (norm_cfg : Option Cfg) (block_nums : List Nat) :
    Nat → Nat → Nat → Option (List Blocks)
  | _, _, 0 => some []
  | ch_in, i, Nat.succ n =>
    match block_nums[i]? with
    | none => none
    | some bn =>
      match ch_out_list[i]? with
      | none => none
      | some co =>
        match stagesLoop bt act_cfg variant norm_cfg block_nums
            (bt.expansion * co) (i + 1) n with
        | none => none
        | some rest =>
          some (Blocks.init bt ch_in co bn (i + 2) act_cfg variant norm_cfg :: rest)

/-- The effective activation configuration:
`act_cfg if act_cfg is not None else {"type": "ReLU"}`. -/
def actOf (act_cfg : Option Cfg) : Cfg :=
  act_cfg.getD [("type", "ReLU")]

/-- The effective normalization configuration:
`norm_cfg if norm_cfg is not None else {"type": "BN", "name": "norm"}`. -/
def normOf (norm_cfg : Option Cfg) : Cfg :=
  norm_cfg.getD [("type", "BN"), ("name", "norm")]

/-- `block = BottleNeck if depth >= 50 else BasicBlock`. -/
def blockTypeOf (depth : Nat) : BlockType :=
  if depth ≥ 50 then .bottleNeck else .basicBlock

/-- The stem `conv_def` of `PResNet.__init__` (with `ch_in = 64`):
three 3×3 convolutions (strides 2, 1, 1; channels 3 → 32 → 32 → 64) for
variants "c"/"d", a single 7×7 stride-2 convolution otherwise. -/
def conv_def (variant : String) : List (Nat × Nat × Nat × Nat × String) :=
  if variant = "c" ∨ variant = "d" then
    [(3, 64 / 2, 3, 2, "conv1_1"),
     (64 / 2, 64 / 2, 3, 1, "conv1_2"),
     (64 / 2, 64, 3, 1, "conv1_3")]
  else
    [(3, 64, 7, 2, "conv1_1")]

/-- `self.conv1 = nn.Sequential(OrderedDict([(name, ConvModule(c_in,
c_out, k, s, padding=(k - 1) // 2, act_cfg, norm_cfg)) for ... in
conv_def]))`. -/
def mkConv1 (variant : String) (act norm : Cfg) : List (String × ConvModule) :=
  (conv_def variant).map
    (fun cd =>
      match cd with
      | (c_in, c_out, k, s, name) =>
        (name, convModule c_in c_out k s ((k - 1) / 2) (some act) (some norm)))

/-- `_out_channels = [block.expansion * v for v in ch_out_list]`. -/
def outChannelsAll (bt : BlockType) : List Nat :=
  ch_out_list.map (fun v => bt.expansion * v)

/-- `_out_strides = [4, 8, 16, 32]`. -/
def out_stride_list : List Nat := [4, 8, 16, 32]

/-- Everything `PResNet.__init__` builds before the freezing steps:
`ResNet_cfg` lookup, stem `conv1`, default `act_cfg` / `norm_cfg`,
block-class choice, the residual stages, and the `return_idx`-indexed
`out_channels` / `out_strides`.  The `pretrained` branch (network
download and state-dict load) is external I/O and does not alter the
module structure; it is not modelled. -/
def PResNet.buildBase (depth : Nat) (variant : String) (num_stages : Nat)
    (return_idx : List Nat) (act_cfg norm_cfg : Option Cfg) :
    Option PResNet :=
  match ResNet_cfg depth with
  | none => none
  | some block_nums =>
    match stagesLoop (blockTypeOf depth) (some (actOf act_cfg)) variant
        (some (normOf norm_cfg)) block_nums 64 0 num_stages with
    | none => none
    | some res_layers =>
      match return_idx.mapM (fun i => (outChannelsAll (blockTypeOf depth))[i]?) with
      | none => none
      | some out_channels =>
        match return_idx.mapM (fun i => out_stride_list[i]?) with
        | none => none
        | some out_strides =>
          some { conv1 := mkConv1 variant (actOf act_cfg) (normOf norm_cfg),
                 res_layers := res_layers, return_idx := return_idx,
                 out_channels := out_channels, out_strides := out_strides }

/-! ### Parameter freezing (`PResNet._freeze_parameters`)

`for p in m.parameters(): p.requires_grad = False`, specialized to each
module shape reachable from a `PResNet`. -/

/-- Set every parameter flag of a `Conv2d` to `False`. -/
def Conv2d.freezeParams (c : Conv2d) : Conv2d :=
  { c with weight_rg := false, bias_rg := false }

/-- Set every parameter flag of a norm layer to `False`
(a `FrozenBatchNorm2d` has no parameters). -/
def Norm.freezeParams : Norm → Norm
  | .batchNorm2d n _ _ => .batchNorm2d n false false
  | .frozenBatchNorm2d n => .frozenBatchNorm2d n

/-- Freeze the parameters of a `ConvModule` (activations have none). -/
def ConvModule.freezeParams (m : ConvModule) : ConvModule :=
  { m with conv := m.conv.freezeParams, norm := m.norm.map Norm.freezeParams }

/-- Freeze the parameters of a shortcut branch. -/
def Short.freezeParams : Short → Short
  | .proj c => .proj c.freezeParams
  | .poolProj p c => .poolProj p c.freezeParams

/-- Freeze the parameters of a `BasicBlock`. -/
def BasicBlock.freezeParams (b : BasicBlock) : BasicBlock :=
  { b with short := b.short.map Short.freezeParams,
           branch2a := b.branch2a.freezeParams,
           branch2b := b.branch2b.freezeParams }

/-- Freeze the parameters of a `BottleNeck`. -/
def BottleNeck.freezeParams (b : BottleNeck) : BottleNeck :=
  { b with branch2a := b.branch2a.freezeParams,
           branch2b := b.branch2b.freezeParams,
           branch2c := b.branch2c.freezeParams,
           short := b.short.map Short.freezeParams }

/-- Freeze the parameters of a block of either class. -/
def Block.freezeParams : Block → Block
  | .basic b => .basic b.freezeParams
  | .bottle b => .bottle b.freezeParams

/-- Freeze the parameters of a whole stage. -/
def Blocks.freezeParams (bs : Blocks) : Blocks :=
  { blocks := bs.blocks.map Block.freezeParams }

/-! ### Batch-norm freezing (`PResNet._freeze_norm`)

`if isinstance(m, nn.BatchNorm2d): m = FrozenBatchNorm2d(m.num_features)
else: recurse over named_children and setattr the replaced children`,
specialized to each module shape reachable from a `PResNet`. -/

/-- The `isinstance(m, nn.BatchNorm2d)` base case of `_freeze_norm`:
a batch-norm child is replaced by a `FrozenBatchNorm2d` over the same
`num_features`; everything else at this level is kept. -/
def Norm.freezeNorm : Norm → Norm
  | .batchNorm2d n _ _ => .frozenBatchNorm2d n
  | .frozenBatchNorm2d n => .frozenBatchNorm2d n

/-- `_freeze_norm` recursion through a `ConvModule` (conv layers and
activations contain no batch norm; the norm child may be replaced). -/
def ConvModule.freezeNorm (m : ConvModule) : ConvModule :=
  { m with norm := m.norm.map Norm.freezeNorm }

/-- `_freeze_norm` recursion through a shortcut branch. -/
def Short.freezeNorm : Short → Short
  | .proj c => .proj c.freezeNorm
  | .poolProj p c => .poolProj p c.freezeNorm

/-- `_freeze_norm` recursion through a `BasicBlock`. -/
def BasicBlock.freezeNorm (b : BasicBlock) : BasicBlock :=
  { b with short := b.short.map Short.freezeNorm,
           branch2a := b.branch2a.freezeNorm,
           branch2b := b.branch2b.freezeNorm }

/-- `_freeze_norm` recursion through a `BottleNeck`. -/
def BottleNeck.freezeNorm (b : BottleNeck) : BottleNeck :=
  { b with branch2a := b.branch2a.freezeNorm,
           branch2b := b.branch2b.freezeNorm,
           branch2c := b.branch2c.freezeNorm,
           short := b.short.map Short.freezeNorm }

/-- `_freeze_norm` recursion through a block of either class. -/
def Block.freezeNorm : Block → Block
  | .basic b => .basic b.freezeNorm
  | .bottle b => .bottle b.freezeNorm

/-- `_freeze_norm` recursion through a stage. -/
def Blocks.freezeNorm (bs : Blocks) : Blocks :=
  { blocks := bs.blocks.map Block.freezeNorm }

/-- `_freeze_norm` recursion through the whole network
(`self._freeze_norm(self)` in `__init__`). -/
def PResNet.freezeNorm (net : PResNet) : PResNet :=
  { net with conv1 := net.conv1.map (fun nc => (nc.1, nc.2.freezeNorm)),
             res_layers := net.res_layers.map Blocks.freezeNorm }

/-! ### The freezing steps of `PResNet.__init__` -/

/-- Freeze the parameters of the first `k` stages
(`for i in range(k): self._freeze_parameters(self.res_layers[i])`). -/
def freezeFirst (k : Nat) : List Blocks → List Blocks
  | [] => []
  | s :: rest =>
    match k with
    | 0 => s :: rest
    | Nat.succ k2 => s.freezeParams :: freezeFirst k2 rest

/-- The `freeze_at` step of `__init__`: when `freeze_at >= 0`, freeze the
stem parameters and the first `min(freeze_at, num_stages)` stages. -/
def PResNet.applyFreezeAt (freeze_at : Int) (num_stages : Nat)
    (net : PResNet) : PResNet :=
  if freeze_at ≥ 0 then
    { net with
      conv1 := net.conv1.map (fun nc => (nc.1, nc.2.freezeParams)),
      res_layers := freezeFirst (min freeze_at (num_stages : Int)).toNat net.res_layers }
  else net

/-- `PResNet.__init__`: build the module tree, then apply the `freeze_at`
step and, when `freeze_norm` is set, the batch-norm freezing step. -/
def PResNet.init (depth : Nat) (variant : String) (num_stages : Nat)
    (return_idx : List Nat) (act_cfg norm_cfg : Option Cfg)
    (freeze_at : Int) (freeze_norm : Bool) : Option PResNet :=
  (PResNet.buildBase depth variant num_stages return_idx act_cfg norm_cfg).map
    (fun net =>
      let net := PResNet.applyFreezeAt freeze_at num_stages net
      if freeze_norm then net.freezeNorm else net)

/-! ### Parameters of each module shape (in registration order) -/

/-- The `requires_grad` flags of a `Conv2d`'s parameters. -/
def Conv2d.params (c : Conv2d) : List Bool :=
  if c.bias then [c.weight_rg, c.bias_rg] else [c.weight_rg]

/-- The `requires_grad` flags of a norm layer's parameters. -/
def Norm.params : Norm → List Bool
  | .batchNorm2d _ w b => [w, b]
  | .frozenBatchNorm2d _ => []

/-- The `requires_grad` flags of a `ConvModule`'s parameters. -/
def ConvModule.params (m : ConvModule) : List Bool :=
  m.conv.params ++ (match m.norm with | some n => n.params | none => [])

/-- The `requires_grad` flags of a shortcut branch's parameters. -/
def Short.params : Short → List Bool
  | .proj c => c.params
  | .poolProj _ c => c.params

/-- The `requires_grad` flags of a `BasicBlock`'s parameters. -/
def BasicBlock.params (b : BasicBlock) : List Bool :=
  (match b.short with | some s => s.params | none => []) ++
    b.branch2a.params ++ b.branch2b.params

/-- The `requires_grad` flags of a `BottleNeck`'s parameters. -/
def BottleNeck.params (b : BottleNeck) : List Bool :=
  b.branch2a.params ++ b.branch2b.params ++ b.branch2c.params ++
    (match b.short with | some s => s.params | none => [])

/-- The `requires_grad` flags of a block's parameters. -/
def Block.params : Block → List Bool
  | .basic b => b.params
  | .bottle b => b.params

/-- The `requires_grad` flags of a stage's parameters. -/
def Blocks.params (bs : Blocks) : List Bool :=
  bs.blocks.flatMap Block.params

/-- The `requires_grad` flags of the stem's parameters. -/
def stemParams (conv1 : List (String × ConvModule)) : List Bool :=
  conv1.flatMap (fun nc => nc.2.params)

/-! ### Batch-norm submodule detection -/

/-- Whether a norm layer is a live `nn.BatchNorm2d`. -/
def Norm.isBN : Norm → Bool
  | .batchNorm2d _ _ _ => true
  | .frozenBatchNorm2d _ => false

/-- Whether a `ConvModule` contains an `nn.BatchNorm2d` submodule. -/
def ConvModule.hasBN (m : ConvModule) : Bool :=
  match m.norm with
  | some n => n.isBN
  | none => false

/-- Whether a shortcut branch contains an `nn.BatchNorm2d` submodule. -/
def Short.hasBN : Short → Bool
  | .proj c => c.hasBN
  | .poolProj _ c => c.hasBN

/-- Whether a `BasicBlock` contains an `nn.BatchNorm2d` submodule. -/
def BasicBlock.hasBN (b : BasicBlock) : Bool :=
  (match b.short with | some s => s.hasBN | none => false) ||
    b.branch2a.hasBN || b.branch2b.hasBN

/-- Whether a `BottleNeck` contains an `nn.BatchNorm2d` submodule. -/
def BottleNeck.hasBN (b : BottleNeck) : Bool :=
  b.branch2a.hasBN || b.branch2b.hasBN || b.branch2c.hasBN ||
    (match b.short with | some s => s.hasBN | none => false)

/-- Whether a block contains an `nn.BatchNorm2d` submodule. -/
def Block.hasBN : Block → Bool
  | .basic b => b.hasBN
  | .bottle b => b.hasBN

/-- Whether a stage contains an `nn.BatchNorm2d` submodule. -/
def Blocks.hasBN (bs : Blocks) : Bool :=
  bs.blocks.any Block.hasBN

/-- Whether any submodule of a `PResNet` is an `nn.BatchNorm2d`. -/
def PResNet.hasBN (net : PResNet) : Bool :=
  net.conv1.any (fun nc => nc.2.hasBN) || net.res_layers.any Blocks.hasBN

/-! ### Forward semantics over an abstract tensor type

The framework's tensor primitives are uninterpreted; the forward methods
of the source are explicit dataflow over them. -/

/-- Uninterpreted tensor primitives used by the forward passes. -/
structure Interp (T : Type) where
  conv2d : Nat → Nat → Nat → Nat → Nat → Bool → T → T
  batchNorm2d : Nat → T → T
  frozenBatchNorm2d : Nat → T → T
  activation : Cfg → T → T
  avgPool2d : Nat → Nat → Nat → Bool → T → T
  maxPool2d : Nat → Nat → Nat → T → T
  add : T → T → T

variable {T : Type}

/-- Apply an `nn.Conv2d` layer. -/
def Conv2d.run (I : Interp T) (c : Conv2d) (x : T) : T :=
  I.conv2d c.ch_in c.ch_out c.kernel_size c.stride c.padding c.bias x

/-- Apply a norm layer. -/
def Norm.run (I : Interp T) : Norm → T → T
  | .batchNorm2d n _ _, x => I.batchNorm2d n x
  | .frozenBatchNorm2d n, x => I.frozenBatchNorm2d n x

/-- Apply an `nn.AvgPool2d` layer. -/
def AvgPool2d.run (I : Interp T) (p : AvgPool2d) (x : T) : T :=
  I.avgPool2d p.kernel_size p.stride p.padding p.ceil_mode x

/-- Apply the activation attribute (`nn.Identity` is the identity). -/
def ActLayer.run (I : Interp T) : ActLayer → T → T
  | .identity, x => x
  | .activation cfg, x => I.activation cfg x

/-- Modelled from the spec: a `ConvModule` applies its convolution, then
its normalization (when present), then its activation (when present). -/
def ConvModule.run (I : Interp T) (m : ConvModule) (x : T) : T :=
  let x := m.conv.run I x
  let x := match m.norm with | some n => n.run I x | none => x
  match m.act with | some cfg => I.activation cfg x | none => x

/-- Apply a shortcut branch (`self.short(x)`): the projection, with the
average pooling applied first in the `Sequential` case. -/
def Short.run (I : Interp T) : Short → T → T
  | .proj c, x => c.run I x
  | .poolProj p c, x => c.run I (p.run I x)

/-- `BasicBlock.forward`. -/
def BasicBlock.forward (I : Interp T) (b : BasicBlock) (x : T) : T :=
  let out := b.branch2a.run I x
  let out := b.branch2b.run I out
  let short :=
    if b.shortcut then x
    else
      match b.short with
      | some s => s.run I x
      | none => x
  b.act.run I (I.add out short)

/-- `BottleNeck.forward`. -/
def BottleNeck.forward (I : Interp T) (b : BottleNeck) (x : T) : T :=
  let out := b.branch2a.run I x
  let out := b.branch2b.run I out
  let out := b.branch2c.run I out
  let short :=
    if b.shortcut then x
    else
      match b.short with
      | some s => s.run I x
      | none => x
  b.act.run I (I.add out short)

/-- Apply a block of either class. -/
def Block.forward (I : Interp T) : Block → T → T
  | .basic b, x => b.forward I x
  | .bottle b, x => b.forward I x

/-- `Blocks.forward`: thread the input through the blocks in order. -/
def Blocks.forward (I : Interp T) (bs : Blocks) (x : T) : T :=
  bs.blocks.foldl (fun out b => b.forward I out) x

/-- `nn.Sequential` forward of the stem. -/
def runStem (I : Interp T) (conv1 : List (String × ConvModule)) (x : T) : T :=
  conv1.foldl (fun out nc => nc.2.run I out) x

/-- The output-collecting loop of `PResNet.forward`
(`for idx, stage in enumerate(self.res_layers): x = stage(x);
if idx in self.return_idx: outs.append(x)`). -/
def presnetLoop (I : Interp T) (return_idx : List Nat) :
    List Blocks → Nat → T → List T → List T
  | [], _, _, outs => outs
  | stage :: rest, idx, x, outs =>
    let x2 := stage.forward I x
    presnetLoop I return_idx rest (idx + 1) x2
      (if idx ∈ return_idx then outs ++ [x2] else outs)

/-- `PResNet.forward`: stem, then `F.max_pool2d(. , kernel_size=3,
stride=2, padding=1)`, then the residual stages. -/
def PResNet.forward (I : Interp T) (net : PResNet) (x : T) : List T :=
  let conv1 := runStem I net.conv1 x
  let x := I.maxPool2d 3 2 1 conv1
  presnetLoop I net.return_idx net.res_layers 0 x []

/-- The cumulative per-stage outputs (the spec's reading: the output of
stage 0 on the pooled stem, then of each following stage on its
predecessor's output). -/
def stageOuts (I : Interp T) : List Blocks → T → List T
  | [], _ => []
  | s :: rest, x =>
    let y := s.forward I x
    y :: stageOuts I rest y

/-! ### Structural observables (invariant under the freezing steps) -/

/-- The constructor signature `(ch_in, ch_out, kernel_size, stride)` of a
`ConvModule`'s convolution. -/
def ConvModule.sig (m : ConvModule) : Nat × Nat × Nat × Nat :=
  (m.conv.ch_in, m.conv.ch_out, m.conv.kernel_size, m.conv.stride)

/-- The named stem signature of a network. -/
def PResNet.stemSig (net : PResNet) : List (String × Nat × Nat × Nat × Nat) :=
  net.conv1.map (fun nc => (nc.1, nc.2.sig))

/-- Whether a block is a `BottleNeck`. -/
def Block.isBottle : Block → Bool
  | .basic _ => false
  | .bottle _ => true

/-- The `ch_out` a block was constructed over, read off its `branch2a`
output width (equal to `ch_out` for both block classes). -/
def Block.stageChOut : Block → Nat
  | .basic b => b.branch2a.conv.ch_out
  | .bottle b => b.branch2a.conv.ch_out

/-- Whether the chosen block class is `BottleNeck`. -/
def BlockType.isBottle : BlockType → Bool
  | .basicBlock => false
  | .bottleNeck => true

end Presnet

namespace PerfSeg

/-! ### `tests/perf/test_semantic_segmentation.py` -/

/-- `Benchmark.Criterion(name, summary, compare, margin)`.  The decimal
literal `0.1` of the source is represented exactly as the rational
`1/10` (the criteria are pure configuration data; no float arithmetic is
performed in this file). -/
structure Criterion where
  name : String
  summary : String
  compare : String
  margin : ℚ

/-- One entry of `BENCHMARK_TEST_CASES`: a benchmark type tag and its
criteria. -/
structure BenchmarkCase where
  type : String
  criteria : List Criterion

/-- `TestPerfSemanticSegmentation.BENCHMARK_TEST_CASES`. -/
def BENCHMARK_TEST_CASES : List BenchmarkCase :=
  [ { type := "accuracy",
      criteria :=
        [ { name := "epoch", summary := "max", compare := "<", margin := 1/10 },
          { name := "val/Dice", summary := "max", compare := ">", margin := 1/10 },
          { name := "test/Dice", summary := "max", compare := ">", margin := 1/10 },
          { name := "export/Dice", summary := "max", compare := ">", margin := 1/10 },
          { name := "optimize/Dice", summary := "max", compare := ">", margin := 1/10 } ] },
    { type := "efficiency",
      criteria :=
        [ { name := "train/iter_time", summary := "mean", compare := "<", margin := 1/10 },
          { name := "test/iter_time", summary := "mean", compare := "<", margin := 1/10 },
          { name := "export/iter_time", summary := "mean", compare := "<", margin := 1/10 },
          { name := "optimize/iter_time", summary := "mean", compare := "<", margin := 1/10 } ] } ]

/-- `TestPerfSemanticSegmentation.test_perf`: its body is the single
statement `self._test_perf(model=fxt_model, dataset=fxt_dataset,
benchmark=fxt_benchmark)`.  The inherited `_test_perf` (from the external
`PerfTestBase`) is an abstract function argument; the fixture types are
abstract. -/
def test_perf {M D B R : Type} (test_perf_base : M → D → B → R)
    (fxt_model : M) (fxt_dataset : D) (fxt_benchmark : B) : R :=
  test_perf_base fxt_model fxt_dataset fxt_benchmark

end PerfSeg

namespace Presnet

/-! ### `FrozenBatchNorm2d._load_from_state_dict` -/

/-- The mutation `_load_from_state_dict` performs on its caller's
`state_dict` itself, before delegating to the parent loader: delete the
entry at key `prefix + "num_batches_tracked"` when present.  A Python
dict (unique keys) is modelled as an association list; deleting the key
is filtering its entry out. -/
def loadFromStateDictDel {V : Type} (pre : String)
    (state_dict : List (String × V)) : List (String × V) :=
  let num_batches_tracked_key := pre ++ "num_batches_tracked"
  if state_dict.any (fun kv => kv.1 == num_batches_tracked_key) then
    state_dict.filter (fun kv => kv.1 != num_batches_tracked_key)
  else
    state_dict

/-- Looking up the deleted key in the filtered dictionary finds nothing. -/
theorem lookup_filter_self {V : Type} (key : String) (sd : List (String × V)) :
    (sd.filter (fun kv => kv.1 != key)).lookup key = none := by
  rw [List.lookup_eq_none_iff]
  intro p hp
  have h2 := (List.mem_filter.mp hp).2
  simp only [bne_iff_ne] at h2 ⊢
  exact fun h3 => h2 h3.symm

/-- Looking up any other key is unaffected by the filtering. -/
theorem lookup_filter_other {V : Type} (key k : String)
    (hk : k ≠ key) (sd : List (String × V)) :
    (sd.filter (fun kv => kv.1 != key)).lookup k = sd.lookup k := by
  induction sd with
  | nil => rfl
  | cons a tl ih =>
    rcases a with ⟨ak, av⟩
    by_cases h : ak = key
    · rw [List.filter_cons_of_neg (by simp [h])]
      have hak : (k == ak) = false := beq_false_of_ne (by rw [h]; exact hk)
      rw [List.lookup_cons, hak]
      exact ih
    · rw [List.filter_cons_of_pos (by simp [h])]
      rw [List.lookup_cons, List.lookup_cons]
      by_cases hka : (k == ak) = true
      · rw [hka]
      · rw [eq_false_of_ne_true hka]
        exact ih

/-- If no entry has the key, the filtering leaves the list unchanged. -/
theorem filter_eq_self_of_not_any {V : Type} (key : String)
    (sd : List (String × V)) :
    sd.any (fun kv => kv.1 == key) = false →
    sd.filter (fun kv => kv.1 != key) = sd := by
  induction sd with
  | nil => intro _; rfl
  | cons a tl ih =>
    intro h
    simp only [List.any_cons, Bool.or_eq_false_iff] at h
    rw [List.filter_cons_of_pos (by simp [bne, h.1]), ih h.2]

/-- If no entry has the key, looking it up finds nothing. -/
theorem lookup_eq_none_of_not_any {V : Type} (key : String)
    (sd : List (String × V)) (h : sd.any (fun kv => kv.1 == key) = false) :
    sd.lookup key = none := by
  rw [List.lookup_eq_none_iff]
  intro p hp
  rw [List.any_eq_false] at h
  have h2 := h p hp
  simp only [beq_iff_eq] at h2
  simp only [bne_iff_ne]
  exact fun h3 => h2 h3.symm

end Presnet

/-- C6: the semantic-segmentation benchmark suite defines exactly two
benchmark test cases: one of type "accuracy" with criteria epoch
(summary max, compare "<") and val/Dice, test/Dice, export/Dice,
optimize/Dice (each summary max, compare ">"), and one of type
"efficiency" with criteria train, test, export and optimize iter_time
(each summary mean, compare "<"); every criterion has margin 0.1. -/
theorem claim_C6 :
    PerfSeg.BENCHMARK_TEST_CASES.length = 2
    ∧ PerfSeg.BENCHMARK_TEST_CASES.map PerfSeg.BenchmarkCase.type
        = ["accuracy", "efficiency"]
    ∧ PerfSeg.BENCHMARK_TEST_CASES.map
        (fun c => c.criteria.map (fun cr => (cr.name, cr.summary, cr.compare)))
      = [[("epoch", "max", "<"), ("val/Dice", "max", ">"), ("test/Dice", "max", ">"),
          ("export/Dice", "max", ">"), ("optimize/Dice", "max", ">")],
         [("train/iter_time", "mean", "<"), ("test/iter_time", "mean", "<"),
          ("export/iter_time", "mean", "<"), ("optimize/iter_time", "mean", "<")]]
    ∧ (PerfSeg.BENCHMARK_TEST_CASES.flatMap (fun c => c.criteria)).map
        PerfSeg.Criterion.margin = List.replicate 9 (1/10) :=
  ⟨rfl, rfl, rfl, by norm_num [PerfSeg.BENCHMARK_TEST_CASES, List.replicate]⟩

/-- C7: for every model, dataset and benchmark fixture triple, test_perf
is behaviourally equal to a single call of the inherited base method
with exactly those three arguments: it adds no computation,
transformation, or state of its own. -/
theorem claim_C7 :
    ∀ (M D B R : Type) (test_perf_base : M → D → B → R) (m : M) (d : D) (b : B),
      PerfSeg.test_perf test_perf_base m d b = test_perf_base m d b :=
  fun _ _ _ _ _ _ _ _ => rfl

/-- C8: constructing a PResNet with any depth outside 18, 34, 50, 101
fails at the ResNet_cfg lookup (modelled as the none result) before any
stem or stage module is built; for every depth in that set the lookup
succeeds and construction proceeds. -/
theorem claim_C8 :
    (∀ depth : Nat,
        (Presnet.ResNet_cfg depth).isSome ↔ depth ∈ ([18, 34, 50, 101] : List Nat))
    ∧ (∀ (depth : Nat) (variant : String) (num_stages : Nat)
        (return_idx : List Nat) (act_cfg norm_cfg : Option Presnet.Cfg)
        (freeze_at : Int) (freeze_norm : Bool),
        Presnet.ResNet_cfg depth = none →
        Presnet.PResNet.init depth variant num_stages return_idx act_cfg
          norm_cfg freeze_at freeze_norm = none)
    ∧ (∀ depth ∈ ([18, 34, 50, 101] : List Nat),
        (Presnet.PResNet.init depth "d" 4 [0, 1, 2, 3] none none (-1) true).isSome) := by
  refine ⟨?_, ?_, ?_⟩
  · intro depth
    simp only [Presnet.ResNet_cfg, List.mem_cons, List.not_mem_nil, or_false]
    split_ifs <;> simp_all
  · intro depth variant num_stages return_idx act_cfg norm_cfg freeze_at freeze_norm h
    have hb : Presnet.PResNet.buildBase depth variant num_stages return_idx
        act_cfg norm_cfg = none := by
      unfold Presnet.PResNet.buildBase
      rw [h]
    unfold Presnet.PResNet.init
    rw [hb]
    rfl
  · intro depth hd
    fin_cases hd <;> decide

/-- Witness for C8 at concrete inputs: depth 7 is rejected by the lookup
and yields no network. -/
theorem claim_C8_witness :
    Presnet.PResNet.init 7 "d" 4 [0, 1, 2, 3] none none (-1) true = none :=
  claim_C8.2.1 7 "d" 4 [0, 1, 2, 3] none none (-1) true rfl

/-- C10: the state-dict mutation performed by
FrozenBatchNorm2d._load_from_state_dict itself deletes the entry at
prefix + "num_batches_tracked" when present, and adds, removes or
changes no other entry. -/
theorem claim_C10 :
    (∀ (V : Type) (pre : String) (sd : List (String × V)),
        (Presnet.loadFromStateDictDel pre sd).lookup
          (pre ++ "num_batches_tracked") = none)
    ∧ (∀ (V : Type) (pre : String) (sd : List (String × V)) (k : String),
        k ≠ pre ++ "num_batches_tracked" →
        (Presnet.loadFromStateDictDel pre sd).lookup k = sd.lookup k)
    ∧ (∀ (V : Type) (pre : String) (sd : List (String × V)),
        sd.any (fun kv => kv.1 == pre ++ "num_batches_tracked") = false →
        Presnet.loadFromStateDictDel pre sd = sd) := by
  refine ⟨?_, ?_, ?_⟩
  · intro V pre sd
    unfold Presnet.loadFromStateDictDel
    by_cases h : sd.any (fun kv => kv.1 == pre ++ "num_batches_tracked") = true
    · simp only [h, if_true]
      exact Presnet.lookup_filter_self _ sd
    · simp only [eq_false_of_ne_true h, Bool.false_eq_true, if_false]
      exact Presnet.lookup_eq_none_of_not_any _ sd (eq_false_of_ne_true h)
  · intro V pre sd k hk
    unfold Presnet.loadFromStateDictDel
    by_cases h : sd.any (fun kv => kv.1 == pre ++ "num_batches_tracked") = true
    · simp only [h, if_true]
      exact Presnet.lookup_filter_other _ k hk sd
    · simp [eq_false_of_ne_true h]
  · intro V pre sd h
    unfold Presnet.loadFromStateDictDel
    simp [h]

/-- Witness for C10 at a concrete dictionary: the tracked-count entry is
removed while the weight entry is preserved. -/
theorem claim_C10_witness :
    (Presnet.loadFromStateDictDel "bn."
        [("bn.weight", 1), ("bn.num_batches_tracked", 2)]).lookup "bn.weight"
      = ([("bn.weight", 1), ("bn.num_batches_tracked", 2)] :
          List (String × Nat)).lookup "bn.weight" :=
  claim_C10.2.1 Nat "bn." [("bn.weight", 1), ("bn.num_batches_tracked", 2)]
    "bn.weight" (by decide)

namespace Presnet

/-- The construction loop always yields `count` blocks. -/
theorem blocksLoop_length (bt : BlockType) (ch_out stage_num : Nat)
    (act_cfg : Option Cfg) (variant : String) (norm_cfg : Option Cfg) :
    ∀ (n i ch_in : Nat),
      (blocksLoop bt ch_out stage_num act_cfg variant norm_cfg i ch_in n).length = n := by
  intro n
  induction n with
  | zero => intro i ch; rfl
  | succ n ih =>
    intro i ch
    simp only [blocksLoop, List.length_cons, ih]

/-- Past index 0 the loop repeats the same constructor call: stride 1,
shortcut `True`, and the `ch_in` it entered the tail with. -/
theorem blocksLoop_tail (bt : BlockType) (ch_out stage_num : Nat)
    (act_cfg : Option Cfg) (variant : String) (norm_cfg : Option Cfg) :
    ∀ (n i ch_in j : Nat), i ≠ 0 → j < n →
      (blocksLoop bt ch_out stage_num act_cfg variant norm_cfg i ch_in n)[j]? =
        some (bt.make ch_in ch_out 1 true act_cfg variant norm_cfg) := by
  intro n
  induction n with
  | zero => intro i ch j hi hj; exact absurd hj (Nat.not_lt_zero j)
  | succ n ih =>
    intro i ch j hi hj
    cases j with
    | zero =>
      have hb : (i != 0) = true := by simpa [bne_iff_ne] using hi
      simp [blocksLoop, hi, hb]
    | succ j2 =>
      simp only [blocksLoop, if_neg hi, List.getElem?_cons_succ]
      exact ih (i + 1) ch j2 (Nat.succ_ne_zero i) (Nat.lt_of_succ_lt_succ hj)

end Presnet

/-- C9: in every stage built by Blocks with count >= 1, exactly the first
block (index 0) is constructed with shortcut False and stride 2 when
stage_num is not 2 (stride 1 when it is), while every later block is
constructed with shortcut True, stride 1, and input channel count
ch_out * block.expansion. -/
theorem claim_C9 :
    ∀ (bt : Presnet.BlockType) (ch_in ch_out count stage_num : Nat)
      (act_cfg : Option Presnet.Cfg) (variant : String)
      (norm_cfg : Option Presnet.Cfg),
      1 ≤ count →
      (Presnet.Blocks.init bt ch_in ch_out count stage_num act_cfg variant
          norm_cfg).blocks.length = count
      ∧ (Presnet.Blocks.init bt ch_in ch_out count stage_num act_cfg variant
          norm_cfg).blocks[0]?
          = some (bt.make ch_in ch_out (if stage_num ≠ 2 then 2 else 1) false
              act_cfg variant norm_cfg)
      ∧ ∀ j, 1 ≤ j → j < count →
          (Presnet.Blocks.init bt ch_in ch_out count stage_num act_cfg variant
              norm_cfg).blocks[j]?
            = some (bt.make (ch_out * bt.expansion) ch_out 1 true act_cfg
                variant norm_cfg) := by
  intro bt ch_in ch_out count stage_num act_cfg variant norm_cfg hcount
  obtain ⟨m, rfl⟩ : ∃ m, count = m + 1 := ⟨count - 1, by omega⟩
  refine ⟨Presnet.blocksLoop_length bt ch_out stage_num act_cfg variant norm_cfg _ 0 ch_in, ?_, ?_⟩
  · simp [Presnet.Blocks.init, Presnet.blocksLoop]
  · intro j hj1 hj2
    obtain ⟨j2, rfl⟩ : ∃ j2, j = j2 + 1 := ⟨j - 1, by omega⟩
    simp only [Presnet.Blocks.init, Presnet.blocksLoop, if_pos rfl,
      List.getElem?_cons_succ]
    exact Presnet.blocksLoop_tail bt ch_out stage_num act_cfg variant norm_cfg
      m 1 (ch_out * bt.expansion) j2 one_ne_zero (by omega)

/-- Witness for C9 at a concrete stage: two basic blocks over 64
channels in stage 2; the second block is the uniform tail block. -/
theorem claim_C9_witness :
    (Presnet.Blocks.init Presnet.BlockType.basicBlock 64 64 2 2 none "d"
        none).blocks[1]?
      = some (Presnet.BlockType.make Presnet.BlockType.basicBlock
          (64 * Presnet.BlockType.basicBlock.expansion) 64 1 true none "d" none) :=
  (claim_C9 Presnet.BlockType.basicBlock 64 64 2 2 none "d" none
      (by decide)).2.2 1 (by decide) (by decide)

open Presnet in
/-- C4: for every input, BasicBlock.forward equals
act(branch2b(branch2a(x)) + short) and BottleNeck.forward equals
act(branch2c(branch2b(branch2a(x))) + short), where short is the
identity x for a block constructed with shortcut True, and is the
constructed projection (with average pooling prepended for variant "d"
with stride 2) for shortcut False. -/
theorem claim_C4 :
    (∀ (T : Type) (I : Interp T) (ch_in ch_out stride : Nat)
        (act_cfg : Option Cfg) (variant : String) (norm_cfg : Option Cfg) (x : T),
      (BasicBlock.init ch_in ch_out stride true act_cfg variant norm_cfg).forward I x
        = (BasicBlock.init ch_in ch_out stride true act_cfg variant norm_cfg).act.run I
            (I.add
              ((BasicBlock.init ch_in ch_out stride true act_cfg variant norm_cfg).branch2b.run I
                ((BasicBlock.init ch_in ch_out stride true act_cfg variant norm_cfg).branch2a.run I x))
              x))
    ∧ (∀ (T : Type) (I : Interp T) (ch_in ch_out stride : Nat)
        (act_cfg : Option Cfg) (variant : String) (norm_cfg : Option Cfg) (x : T),
      (BasicBlock.init ch_in ch_out stride false act_cfg variant norm_cfg).forward I x
        = (BasicBlock.init ch_in ch_out stride false act_cfg variant norm_cfg).act.run I
            (I.add
              ((BasicBlock.init ch_in ch_out stride false act_cfg variant norm_cfg).branch2b.run I
                ((BasicBlock.init ch_in ch_out stride false act_cfg variant norm_cfg).branch2a.run I x))
              ((if variant = "d" ∧ stride = 2 then
                  Short.poolProj
                    { kernel_size := 2, stride := 2, padding := 0, ceil_mode := true }
                    (convModule ch_in ch_out 1 1 0 none norm_cfg)
                else
                  Short.proj (convModule ch_in ch_out 1 stride 0 none norm_cfg)).run I x)))
    ∧ (∀ (T : Type) (I : Interp T) (ch_in ch_out stride : Nat)
        (act_cfg : Option Cfg) (variant : String) (norm_cfg : Option Cfg) (x : T),
      (BottleNeck.init ch_in ch_out stride true act_cfg variant norm_cfg).forward I x
        = (BottleNeck.init ch_in ch_out stride true act_cfg variant norm_cfg).act.run I
            (I.add
              ((BottleNeck.init ch_in ch_out stride true act_cfg variant norm_cfg).branch2c.run I
                ((BottleNeck.init ch_in ch_out stride true act_cfg variant norm_cfg).branch2b.run I
                  ((BottleNeck.init ch_in ch_out stride true act_cfg variant norm_cfg).branch2a.run I x)))
              x))
    ∧ (∀ (T : Type) (I : Interp T) (ch_in ch_out stride : Nat)
        (act_cfg : Option Cfg) (variant : String) (norm_cfg : Option Cfg) (x : T),
      (BottleNeck.init ch_in ch_out stride false act_cfg variant norm_cfg).forward I x
        = (BottleNeck.init ch_in ch_out stride false act_cfg variant norm_cfg).act.run I
            (I.add
              ((BottleNeck.init ch_in ch_out stride false act_cfg variant norm_cfg).branch2c.run I
                ((BottleNeck.init ch_in ch_out stride false act_cfg variant norm_cfg).branch2b.run I
                  ((BottleNeck.init ch_in ch_out stride false act_cfg variant norm_cfg).branch2a.run I x)))
              ((if variant = "d" ∧ stride = 2 then
                  Short.poolProj
                    { kernel_size := 2, stride := 2, padding := 0, ceil_mode := true }
                    (convModule ch_in (ch_out * BottleNeck.expansion) 1 1 0 none norm_cfg)
                else
                  Short.proj
                    (convModule ch_in (ch_out * BottleNeck.expansion) 1 stride 0 none norm_cfg)).run I x))) := by
  refine ⟨?_, ?_, ?_, ?_⟩
  · intro T I ch_in ch_out stride act_cfg variant norm_cfg x
    rfl
  · intro T I ch_in ch_out stride act_cfg variant norm_cfg x
    by_cases hv : variant = "d" ∧ stride = 2
    · simp [BasicBlock.init, BasicBlock.forward, hv]
    · simp [BasicBlock.init, BasicBlock.forward, hv]
  · intro T I ch_in ch_out stride act_cfg variant norm_cfg x
    rfl
  · intro T I ch_in ch_out stride act_cfg variant norm_cfg x
    by_cases hv : variant = "d" ∧ stride = 2
    · simp [BottleNeck.init, BottleNeck.forward, hv]
    · simp [BottleNeck.init, BottleNeck.forward, hv]

namespace Presnet

/-- Split a successful `init` into its base construction and the two
freezing steps. -/
theorem init_parts {depth : Nat} {variant : String} {num_stages : Nat}
    {return_idx : List Nat} {act_cfg norm_cfg : Option Cfg} {freeze_at : Int}
    {freeze_norm : Bool} {net : PResNet}
    (h : PResNet.init depth variant num_stages return_idx act_cfg norm_cfg
        freeze_at freeze_norm = some net) :
    ∃ b, PResNet.buildBase depth variant num_stages return_idx act_cfg
          norm_cfg = some b
      ∧ net = (if freeze_norm then
                 (PResNet.applyFreezeAt freeze_at num_stages b).freezeNorm
               else PResNet.applyFreezeAt freeze_at num_stages b) := by
  unfold PResNet.init at h
  rw [Option.map_eq_some'] at h
  obtain ⟨b, hb, hnet⟩ := h
  exact ⟨b, hb, hnet.symm⟩

/-- Split a successful `buildBase` into its components. -/
theorem buildBase_parts {depth : Nat} {variant : String} {num_stages : Nat}
    {return_idx : List Nat} {act_cfg norm_cfg : Option Cfg} {b : PResNet}
    (h : PResNet.buildBase depth variant num_stages return_idx act_cfg
        norm_cfg = some b) :
    ∃ block_nums res_layers out_channels out_strides,
      ResNet_cfg depth = some block_nums
      ∧ stagesLoop (blockTypeOf depth) (some (actOf act_cfg)) variant
          (some (normOf norm_cfg)) block_nums 64 0 num_stages = some res_layers
      ∧ return_idx.mapM (fun i => (outChannelsAll (blockTypeOf depth))[i]?)
          = some out_channels
      ∧ return_idx.mapM (fun i => out_stride_list[i]?) = some out_strides
      ∧ b = { conv1 := mkConv1 variant (actOf act_cfg) (normOf norm_cfg),
              res_layers := res_layers, return_idx := return_idx,
              out_channels := out_channels, out_strides := out_strides } := by
  unfold PResNet.buildBase at h
  split at h
  · exact absurd h (by simp)
  · rename_i block_nums hcfg
    split at h
    · exact absurd h (by simp)
    · rename_i res_layers hsl
      split at h
      · exact absurd h (by simp)
      · rename_i out_channels hoc
        split at h
        · exact absurd h (by simp)
        · rename_i out_strides hos
          exact ⟨block_nums, res_layers, out_channels, out_strides, hcfg,
            hsl, hoc, hos, (Option.some_inj.mp h).symm⟩

/-- The `freeze_at` step does not change the stem signature. -/
theorem stemSig_applyFreezeAt (freeze_at : Int) (num_stages : Nat)
    (net : PResNet) :
    (PResNet.applyFreezeAt freeze_at num_stages net).stemSig = net.stemSig := by
  unfold PResNet.applyFreezeAt
  by_cases h : freeze_at ≥ 0
  · rw [if_pos h]
    simp only [PResNet.stemSig, List.map_map]
    rfl
  · rw [if_neg h]

/-- The batch-norm freezing step does not change the stem signature. -/
theorem stemSig_freezeNorm (net : PResNet) :
    net.freezeNorm.stemSig = net.stemSig := by
  simp only [PResNet.freezeNorm, PResNet.stemSig, List.map_map]
  rfl

/-- The stem signature survives both freezing steps of `init`. -/
theorem stemSig_init {num_stages : Nat} {freeze_at : Int}
    {freeze_norm : Bool} {net b : PResNet}
    (hnet : net = (if freeze_norm then
        (PResNet.applyFreezeAt freeze_at num_stages b).freezeNorm
      else PResNet.applyFreezeAt freeze_at num_stages b)) :
    net.stemSig = b.stemSig := by
  cases freeze_norm with
  | true =>
    rw [hnet, if_pos rfl, stemSig_freezeNorm, stemSig_applyFreezeAt]
  | false =>
    rw [hnet, if_neg (by simp), stemSig_applyFreezeAt]

/-- The output-collecting loop of `PResNet.forward` computes the
filtered enumeration of the cumulative stage outputs. -/
theorem presnetLoop_eq {T : Type} (I : Interp T) (ridx : List Nat) :
    ∀ (stages : List Blocks) (i : Nat) (x : T) (acc : List T),
      presnetLoop I ridx stages i x acc
        = acc ++ (((stageOuts I stages x).enumFrom i).filter
            (fun p => decide (p.1 ∈ ridx))).map Prod.snd := by
  intro stages
  induction stages with
  | nil => intro i x acc; simp [presnetLoop, stageOuts]
  | cons s rest ih =>
    intro i x acc
    simp only [presnetLoop, stageOuts]
    rw [ih]
    by_cases hm : i ∈ ridx
    · simp [hm, List.enumFrom, List.filter, List.append_assoc]
    · simp [hm, List.enumFrom, List.filter]

end Presnet

open Presnet in
/-- C5: for variant "c" or "d" the stem conv1 is exactly three 3×3
ConvModules with strides 2, 1, 1 and channel path 3 → 32 → 32 → 64,
otherwise a single 7×7 stride-2 ConvModule from 3 to 64 channels; and
PResNet.forward always applies conv1 and then a 3×3 stride-2 padding-1
max pooling before the residual stages, returning the stage outputs
whose stage index is in return_idx, in increasing stage order. -/
theorem claim_C5 :
    (∀ (depth : Nat) (variant : String) (num_stages : Nat)
        (return_idx : List Nat) (act_cfg norm_cfg : Option Cfg)
        (freeze_at : Int) (freeze_norm : Bool) (net : PResNet),
      PResNet.init depth variant num_stages return_idx act_cfg norm_cfg
          freeze_at freeze_norm = some net →
      ((variant = "c" ∨ variant = "d") →
        net.stemSig = [("conv1_1", 3, 32, 3, 2), ("conv1_2", 32, 32, 3, 1),
          ("conv1_3", 32, 64, 3, 1)])
      ∧ (¬(variant = "c" ∨ variant = "d") →
        net.stemSig = [("conv1_1", 3, 64, 7, 2)]))
    ∧ (∀ (T : Type) (I : Interp T) (net : PResNet) (x : T),
      net.forward I x
        = (((stageOuts I net.res_layers
              (I.maxPool2d 3 2 1 (runStem I net.conv1 x))).enum.filter
            (fun p => decide (p.1 ∈ net.return_idx))).map Prod.snd)) := by
  constructor
  · intro depth variant num_stages return_idx act_cfg norm_cfg freeze_at
      freeze_norm net hinit
    obtain ⟨b, hb, hnet⟩ := Presnet.init_parts hinit
    obtain ⟨bn, rl, oc, os, hcfg, hsl, hoc, hos, hb_eq⟩ :=
      Presnet.buildBase_parts hb
    have hsig : net.stemSig = b.stemSig := Presnet.stemSig_init hnet
    constructor
    · intro hv
      rw [hsig, hb_eq]
      simp [PResNet.stemSig, mkConv1, conv_def, hv, convModule, ConvModule.sig]
    · intro hv
      rw [hsig, hb_eq]
      simp [PResNet.stemSig, mkConv1, conv_def, hv, convModule, ConvModule.sig]
  · intro T I net x
    unfold PResNet.forward
    rw [Presnet.presnetLoop_eq]
    rw [List.nil_append]
    rfl

open Presnet in
/-- Witness for C5 at a concrete configuration: variant "a" yields the
single 7×7 stride-2 stem entry. -/
theorem claim_C5_witness :
    (PResNet.init 18 "a" 1 [0] none none (-1) false).map PResNet.stemSig
      = some [("conv1_1", 3, 64, 7, 2)] := by
  cases hE : PResNet.init 18 "a" 1 [0] none none (-1) false with
  | none =>
    have h9 : (PResNet.init 18 "a" 1 [0] none none (-1) false).isSome := by decide
    rw [hE] at h9
    exact absurd h9 (by simp)
  | some net =>
    have h := (claim_C5.1 18 "a" 1 [0] none none (-1) false net hE).2 (by decide)
    show some net.stemSig = _
    rw [h]

namespace Presnet

/-- After norm freezing, a `ConvModule` holds no live batch norm. -/
theorem convModule_freezeNorm_hasBN (m : ConvModule) :
    m.freezeNorm.hasBN = false := by
  rcases m with ⟨conv, norm, act⟩
  rcases norm with _ | n
  · rfl
  · cases n <;> rfl

/-- After norm freezing, a shortcut branch holds no live batch norm. -/
theorem short_freezeNorm_hasBN (s : Short) : s.freezeNorm.hasBN = false := by
  cases s <;>
    simp [Short.freezeNorm, Short.hasBN, convModule_freezeNorm_hasBN]

/-- After norm freezing, a `BasicBlock` holds no live batch norm. -/
theorem basicBlock_freezeNorm_hasBN (b : BasicBlock) :
    b.freezeNorm.hasBN = false := by
  rcases b with ⟨sc, short, a2, b2, act⟩
  rcases short with _ | s <;>
    simp [BasicBlock.freezeNorm, BasicBlock.hasBN,
      convModule_freezeNorm_hasBN, short_freezeNorm_hasBN]

/-- After norm freezing, a `BottleNeck` holds no live batch norm. -/
theorem bottleNeck_freezeNorm_hasBN (b : BottleNeck) :
    b.freezeNorm.hasBN = false := by
  rcases b with ⟨a2, b2, c2, sc, short, act⟩
  rcases short with _ | s <;>
    simp [BottleNeck.freezeNorm, BottleNeck.hasBN,
      convModule_freezeNorm_hasBN, short_freezeNorm_hasBN]

/-- After norm freezing, a block holds no live batch norm. -/
theorem block_freezeNorm_hasBN (blk : Block) :
    blk.freezeNorm.hasBN = false := by
  cases blk <;>
    simp [Block.freezeNorm, Block.hasBN, basicBlock_freezeNorm_hasBN,
      bottleNeck_freezeNorm_hasBN]

/-- After norm freezing, a stage holds no live batch norm. -/
theorem blocks_freezeNorm_hasBN (bs : Blocks) :
    bs.freezeNorm.hasBN = false := by
  simp [Blocks.freezeNorm, Blocks.hasBN, List.any_map, Function.comp,
    block_freezeNorm_hasBN]

/-- After the norm-freezing step, no submodule of the network is a live
batch norm. -/
theorem presnet_freezeNorm_hasBN (net : PResNet) :
    net.freezeNorm.hasBN = false := by
  simp [PResNet.freezeNorm, PResNet.hasBN, List.any_map, Function.comp,
    convModule_freezeNorm_hasBN, blocks_freezeNorm_hasBN]

end Presnet

open Presnet in
/-- C1: a PResNet constructed with freeze_norm True contains no
nn.BatchNorm2d submodule after init; the norm-freezing base case
replaces a BatchNorm2d by a FrozenBatchNorm2d over the same
num_features; and with freeze_norm False the norm-freezing step is
skipped entirely: init with freeze_norm True is exactly the
freeze_norm-False result with the replacement map applied. -/
theorem claim_C1 :
    (∀ (depth : Nat) (variant : String) (num_stages : Nat)
        (return_idx : List Nat) (act_cfg norm_cfg : Option Cfg)
        (freeze_at : Int) (net : PResNet),
      PResNet.init depth variant num_stages return_idx act_cfg norm_cfg
          freeze_at true = some net →
      net.hasBN = false)
    ∧ (∀ (num_features : Nat) (w b : Bool),
        Norm.freezeNorm (Norm.batchNorm2d num_features w b)
          = Norm.frozenBatchNorm2d num_features)
    ∧ (∀ (depth : Nat) (variant : String) (num_stages : Nat)
        (return_idx : List Nat) (act_cfg norm_cfg : Option Cfg)
        (freeze_at : Int),
        PResNet.init depth variant num_stages return_idx act_cfg norm_cfg
            freeze_at true
          = (PResNet.init depth variant num_stages return_idx act_cfg
              norm_cfg freeze_at false).map PResNet.freezeNorm) := by
  refine ⟨?_, ?_, ?_⟩
  · intro depth variant num_stages return_idx act_cfg norm_cfg freeze_at net hinit
    obtain ⟨b, _, hnet⟩ := Presnet.init_parts hinit
    rw [if_pos rfl] at hnet
    rw [hnet]
    exact Presnet.presnet_freezeNorm_hasBN _
  · intro num_features w b
    rfl
  · intro depth variant num_stages return_idx act_cfg norm_cfg freeze_at
    unfold PResNet.init
    cases PResNet.buildBase depth variant num_stages return_idx act_cfg norm_cfg with
    | none => rfl
    | some b => rfl

open Presnet in
/-- Witness for C1 at a concrete configuration: the constructed network
contains no live batch norm. -/
theorem claim_C1_witness :
    (PResNet.init 18 "a" 1 [0] none none (-1) true).map PResNet.hasBN
      = some false := by
  cases hE : PResNet.init 18 "a" 1 [0] none none (-1) true with
  | none =>
    have h9 : (PResNet.init 18 "a" 1 [0] none none (-1) true).isSome := by decide
    rw [hE] at h9
    exact absurd h9 (by simp)
  | some net =>
    show some net.hasBN = some false
    rw [claim_C1.1 18 "a" 1 [0] none none (-1) net hE]

namespace Presnet

/-- The block constructor yields the requested `ch_out` width. -/
theorem make_stageChOut (bt : BlockType) (ch_in ch_out stride : Nat)
    (shortcut : Bool) (act_cfg : Option Cfg) (variant : String)
    (norm_cfg : Option Cfg) :
    (bt.make ch_in ch_out stride shortcut act_cfg variant norm_cfg).stageChOut
      = ch_out := by
  cases bt <;> rfl

/-- The block constructor yields a block of the requested class. -/
theorem make_isBottle (bt : BlockType) (ch_in ch_out stride : Nat)
    (shortcut : Bool) (act_cfg : Option Cfg) (variant : String)
    (norm_cfg : Option Cfg) :
    (bt.make ch_in ch_out stride shortcut act_cfg variant norm_cfg).isBottle
      = bt.isBottle := by
  cases bt <;> rfl

/-- Every block the loop builds has the stage's `ch_out` and class. -/
theorem blocksLoop_mem (bt : BlockType) (ch_out stage_num : Nat)
    (act_cfg : Option Cfg) (variant : String) (norm_cfg : Option Cfg) :
    ∀ (n i ch_in : Nat) (blk : Block),
      blk ∈ blocksLoop bt ch_out stage_num act_cfg variant norm_cfg i ch_in n →
      blk.stageChOut = ch_out ∧ blk.isBottle = bt.isBottle := by
  intro n
  induction n with
  | zero => intro i ch blk h; exact absurd h (List.not_mem_nil blk)
  | succ n ih =>
    intro i ch blk h
    simp only [blocksLoop] at h
    rcases List.mem_cons.mp h with rfl | h2
    · exact ⟨make_stageChOut bt ch ch_out _ _ act_cfg variant norm_cfg,
        make_isBottle bt ch ch_out _ _ act_cfg variant norm_cfg⟩
    · exact ih _ _ blk h2

/-- Parameter freezing preserves a block's `ch_out` observable. -/
theorem block_freezeParams_stageChOut (blk : Block) :
    blk.freezeParams.stageChOut = blk.stageChOut := by
  cases blk <;> rfl

/-- Norm freezing preserves a block's `ch_out` observable. -/
theorem block_freezeNorm_stageChOut (blk : Block) :
    blk.freezeNorm.stageChOut = blk.stageChOut := by
  cases blk <;> rfl

/-- Parameter freezing preserves a block's class. -/
theorem block_freezeParams_isBottle (blk : Block) :
    blk.freezeParams.isBottle = blk.isBottle := by
  cases blk <;> rfl

/-- Norm freezing preserves a block's class. -/
theorem block_freezeNorm_isBottle (blk : Block) :
    blk.freezeNorm.isBottle = blk.isBottle := by
  cases blk <;> rfl

/-- Mapping an observable-preserving function over a block list
preserves length and, pointwise, the two block observables. -/
theorem stage_obs_map (f : Block → Block)
    (hco : ∀ blk, (f blk).stageChOut = blk.stageChOut)
    (hib : ∀ blk, (f blk).isBottle = blk.isBottle)
    (bs : List Block) :
    (bs.map f).length = bs.length
    ∧ ∀ blk ∈ bs.map f, ∃ blk0 ∈ bs,
        blk.stageChOut = blk0.stageChOut ∧ blk.isBottle = blk0.isBottle := by
  refine ⟨by simp, ?_⟩
  intro blk h
  obtain ⟨blk0, hm, rfl⟩ := List.mem_map.mp h
  exact ⟨blk0, hm, hco blk0, hib blk0⟩

/-- `freezeFirst` preserves the number of stages. -/
theorem freezeFirst_length : ∀ (l : List Blocks) (k : Nat),
    (freezeFirst k l).length = l.length := by
  intro l
  induction l with
  | nil => intro k; cases k <;> rfl
  | cons s rest ih =>
    intro k
    cases k with
    | zero => rfl
    | succ k2 => simp [freezeFirst, ih]

/-- Indexing into `freezeFirst`: the first `k` stages are frozen, the
rest untouched. -/
theorem freezeFirst_getElem (l : List Blocks) : ∀ (k j : Nat),
    (freezeFirst k l)[j]?
      = if j < k then (l[j]?).map Blocks.freezeParams else l[j]? := by
  induction l with
  | nil => intro k j; simp [freezeFirst]
  | cons s rest ih =>
    intro k j
    cases k with
    | zero => simp [freezeFirst]
    | succ k2 =>
      cases j with
      | zero => simp [freezeFirst]
      | succ j2 => simp [freezeFirst, ih, Nat.succ_lt_succ_iff]

/-- Transfer of stage count and block observables from the base network
through both freezing steps of `init`. -/
theorem res_layers_transfer {num_stages : Nat} {freeze_at : Int}
    {freeze_norm : Bool} {net b : PResNet}
    (hnet : net = (if freeze_norm then
        (PResNet.applyFreezeAt freeze_at num_stages b).freezeNorm
      else PResNet.applyFreezeAt freeze_at num_stages b)) :
    net.res_layers.length = b.res_layers.length
    ∧ ∀ (i : Nat) (stage0 : Blocks), b.res_layers[i]? = some stage0 →
        ∃ stage, net.res_layers[i]? = some stage
          ∧ stage.blocks.length = stage0.blocks.length
          ∧ ∀ blk ∈ stage.blocks, ∃ blk0 ∈ stage0.blocks,
              blk.stageChOut = blk0.stageChOut
              ∧ blk.isBottle = blk0.isBottle := by
  have hmid : (PResNet.applyFreezeAt freeze_at num_stages b).res_layers
      = (if freeze_at ≥ 0 then
          freezeFirst (min freeze_at (num_stages : Int)).toNat b.res_layers
        else b.res_layers) := by
    unfold PResNet.applyFreezeAt
    by_cases h : freeze_at ≥ 0
    · rw [if_pos h, if_pos h]
    · rw [if_neg h, if_neg h]
  have hmidI : ∀ (i : Nat) (stage0 : Blocks), b.res_layers[i]? = some stage0 →
      ∃ s1, (PResNet.applyFreezeAt freeze_at num_stages b).res_layers[i]? = some s1
        ∧ s1.blocks.length = stage0.blocks.length
        ∧ ∀ blk ∈ s1.blocks, ∃ blk0 ∈ stage0.blocks,
            blk.stageChOut = blk0.stageChOut ∧ blk.isBottle = blk0.isBottle := by
    intro i stage0 h0
    rw [hmid]
    by_cases h1 : freeze_at ≥ 0
    · rw [if_pos h1, freezeFirst_getElem]
      by_cases h2 : i < (min freeze_at (num_stages : Int)).toNat
      · rw [if_pos h2, h0]
        refine ⟨stage0.freezeParams, rfl, ?_, ?_⟩
        · exact (stage_obs_map Block.freezeParams block_freezeParams_stageChOut
            block_freezeParams_isBottle stage0.blocks).1
        · exact (stage_obs_map Block.freezeParams block_freezeParams_stageChOut
            block_freezeParams_isBottle stage0.blocks).2
      · rw [if_neg h2, h0]
        exact ⟨stage0, rfl, rfl, fun blk hb => ⟨blk, hb, rfl, rfl⟩⟩
    · rw [if_neg h1, h0]
      exact ⟨stage0, rfl, rfl, fun blk hb => ⟨blk, hb, rfl, rfl⟩⟩
  have hmidlen : (PResNet.applyFreezeAt freeze_at num_stages b).res_layers.length
      = b.res_layers.length := by
    rw [hmid]
    by_cases h : freeze_at ≥ 0
    · rw [if_pos h, freezeFirst_length]
    · rw [if_neg h]
  cases freeze_norm with
  | false =>
    rw [if_neg (by simp)] at hnet
    subst hnet
    exact ⟨hmidlen, hmidI⟩
  | true =>
    rw [if_pos rfl] at hnet
    subst hnet
    constructor
    · simp only [PResNet.freezeNorm, List.length_map]
      exact hmidlen
    · intro i stage0 h0
      obtain ⟨s1, hs1, hlen1, htr1⟩ := hmidI i stage0 h0
      refine ⟨s1.freezeNorm, ?_, ?_, ?_⟩
      · simp only [PResNet.freezeNorm, List.getElem?_map, hs1]
        rfl
      · have := (stage_obs_map Block.freezeNorm block_freezeNorm_stageChOut
          block_freezeNorm_isBottle s1.blocks).1
        simp only [Blocks.freezeNorm] at this ⊢
        rw [this, hlen1]
      · intro blk hblk
        obtain ⟨b1, hb1, hco, hib⟩ := (stage_obs_map Block.freezeNorm
          block_freezeNorm_stageChOut block_freezeNorm_isBottle s1.blocks).2 blk hblk
        obtain ⟨b0, hb0, hco0, hib0⟩ := htr1 b1 hb1
        exact ⟨b0, hb0, hco.trans hco0, hib.trans hib0⟩

end Presnet

namespace Presnet

/-- A successful stage loop yields one stage per iteration, stage `j`
holding `block_nums[i + j]` blocks over `ch_out_list[i + j]` channels,
all of the chosen class. -/
theorem stagesLoop_facts (bt : BlockType) (act_cfg : Option Cfg)
    (variant : String) (norm_cfg : Option Cfg) (block_nums : List Nat) :
    ∀ (n ch_in i : Nat) (ls : List Blocks),
      stagesLoop bt act_cfg variant norm_cfg block_nums ch_in i n = some ls →
      ls.length = n
      ∧ ∀ j, j < n →
          ∃ stage, ls[j]? = some stage
            ∧ (∃ c, block_nums[i + j]? = some c ∧ stage.blocks.length = c)
            ∧ (∃ co, ch_out_list[i + j]? = some co
                ∧ ∀ blk ∈ stage.blocks,
                    blk.stageChOut = co ∧ blk.isBottle = bt.isBottle) := by
  intro n
  induction n with
  | zero =>
    intro ch i ls h
    simp only [stagesLoop] at h
    rw [Option.some_inj] at h
    subst h
    exact ⟨rfl, fun j hj => absurd hj (Nat.not_lt_zero j)⟩
  | succ n ih =>
    intro ch i ls h
    simp only [stagesLoop] at h
    split at h
    · exact absurd h (by simp)
    · rename_i c hbn
      split at h
      · exact absurd h (by simp)
      · rename_i co hco
        split at h
        · exact absurd h (by simp)
        · rename_i rest hrec
          simp only [Option.some_inj] at h
          subst h
          refine ⟨by simp [(ih _ _ _ hrec).1], ?_⟩
          intro j hj
          cases j with
          | zero =>
            refine ⟨Blocks.init bt ch co c (i + 2) act_cfg variant norm_cfg,
              List.getElem?_cons_zero, ⟨c, ?_, ?_⟩, ⟨co, ?_, ?_⟩⟩
            · rw [Nat.add_zero]; exact hbn
            · exact blocksLoop_length bt co (i + 2) act_cfg variant norm_cfg c 0 ch
            · rw [Nat.add_zero]; exact hco
            · intro blk hblk
              exact blocksLoop_mem bt co (i + 2) act_cfg variant norm_cfg c 0 ch
                blk hblk
          | succ j2 =>
            have hlt : j2 < n := Nat.lt_of_succ_lt_succ hj
            obtain ⟨stage, hstage, ⟨c2, hc2, hlen2⟩, ⟨co2, hco3, hmem⟩⟩ :=
              (ih _ _ _ hrec).2 j2 hlt
            have hidx : i + (j2 + 1) = i + 1 + j2 := by omega
            refine ⟨stage, ?_, ⟨c2, ?_, hlen2⟩, ⟨co2, ?_, hmem⟩⟩
            · rw [List.getElem?_cons_succ]; exact hstage
            · rw [hidx]; exact hc2
            · rw [hidx]; exact hco3

end Presnet

open Presnet in
/-- C2: for every depth in 18, 34, 50, 101 and num_stages at most 4,
init builds exactly num_stages residual stages; stage i contains
ResNet_cfg[depth][i] blocks over output channels [64, 128, 256, 512][i];
every block is a BottleNeck (class with expansion 4) exactly when
depth >= 50 and a BasicBlock (expansion 1) otherwise. -/
theorem claim_C2 :
    ∀ (depth : Nat) (variant : String) (num_stages : Nat)
      (return_idx : List Nat) (act_cfg norm_cfg : Option Cfg)
      (freeze_at : Int) (freeze_norm : Bool) (block_nums : List Nat)
      (net : PResNet),
      ResNet_cfg depth = some block_nums →
      num_stages ≤ 4 →
      PResNet.init depth variant num_stages return_idx act_cfg norm_cfg
          freeze_at freeze_norm = some net →
      net.res_layers.length = num_stages
      ∧ (∀ i, i < num_stages →
          ∃ stage, net.res_layers[i]? = some stage
            ∧ stage.blocks.length = block_nums.getD i 0
            ∧ ∀ blk ∈ stage.blocks,
                blk.stageChOut = ch_out_list.getD i 0
                ∧ blk.isBottle = decide (50 ≤ depth))
      ∧ BlockType.basicBlock.expansion = 1
      ∧ BlockType.bottleNeck.expansion = 4 := by
  intro depth variant num_stages return_idx act_cfg norm_cfg freeze_at
    freeze_norm block_nums net hcfg hns hinit
  obtain ⟨b, hb, hnet⟩ := Presnet.init_parts hinit
  obtain ⟨bn, rl, oc, os, hcfg2, hsl, hoc, hos, hb_eq⟩ :=
    Presnet.buildBase_parts hb
  rw [hcfg, Option.some_inj] at hcfg2
  subst hcfg2
  have hbres : b.res_layers = rl := by rw [hb_eq]
  obtain ⟨htlen, htr⟩ := Presnet.res_layers_transfer hnet
  obtain ⟨hsllen, hsl_facts⟩ := Presnet.stagesLoop_facts (blockTypeOf depth)
    (some (actOf act_cfg)) variant (some (normOf norm_cfg)) block_nums
    num_stages 64 0 rl hsl
  refine ⟨?_, ?_, rfl, rfl⟩
  · rw [htlen, hbres, hsllen]
  · intro i hi
    obtain ⟨stage0, hstage0, ⟨c, hc, hlen0⟩, ⟨co, hco, hmem0⟩⟩ :=
      hsl_facts i hi
    rw [Nat.zero_add] at hc hco
    have hb0 : b.res_layers[i]? = some stage0 := by rw [hbres]; exact hstage0
    obtain ⟨stage, hstage, hlen, hmem⟩ := htr i stage0 hb0
    refine ⟨stage, hstage, ?_, ?_⟩
    · rw [hlen, hlen0, List.getD_eq_getElem?_getD, hc]
      rfl
    · intro blk hblk
      obtain ⟨blk0, hblk0, hcoE, hibE⟩ := hmem blk hblk
      obtain ⟨hco0, hib0⟩ := hmem0 blk0 hblk0
      constructor
      · rw [hcoE, hco0, List.getD_eq_getElem?_getD, hco]
        rfl
      · rw [hibE, hib0]
        unfold Presnet.blockTypeOf
        by_cases hd : depth ≥ 50
        · rw [if_pos hd]
          simp [Presnet.BlockType.isBottle, hd]
        · rw [if_neg hd]
          simp [Presnet.BlockType.isBottle, hd]

open Presnet in
/-- Witness for C2 at a concrete configuration: depth 18 with a single
stage yields exactly one residual stage. -/
theorem claim_C2_witness :
    (PResNet.init 18 "a" 1 [0] none none (-1) false).map
      (fun net => net.res_layers.length) = some 1 := by
  cases hE : PResNet.init 18 "a" 1 [0] none none (-1) false with
  | none =>
    have h9 : (PResNet.init 18 "a" 1 [0] none none (-1) false).isSome := by decide
    rw [hE] at h9
    exact absurd h9 (by simp)
  | some net =>
    show some net.res_layers.length = some 1
    rw [(claim_C2 18 "a" 1 [0] none none (-1) false [2, 2, 2, 2] net rfl
      (by omega) hE).1]

namespace Presnet

/-- `_freeze_parameters` clears every flag of an `nn.Conv2d`. -/
theorem conv2d_freezeParams_params (c : Conv2d) :
    ∀ p ∈ c.freezeParams.params, p = false := by
  rcases c with ⟨ci, co, k, s, pd, bias, w, bb⟩
  intro p hp
  cases bias <;> simp [Conv2d.freezeParams, Conv2d.params] at hp <;> tauto

/-- `_freeze_parameters` clears every flag of a norm layer. -/
theorem norm_freezeParams_params (n : Norm) :
    ∀ p ∈ n.freezeParams.params, p = false := by
  intro p hp
  cases n <;> simp [Norm.freezeParams, Norm.params] at hp <;> tauto

/-- `_freeze_parameters` clears every flag of a `ConvModule`. -/
theorem convModule_freezeParams_params (m : ConvModule) :
    ∀ p ∈ m.freezeParams.params, p = false := by
  rcases m with ⟨conv, norm, act⟩
  intro p hp
  rcases norm with _ | n
  · simp only [ConvModule.freezeParams, ConvModule.params, Option.map_none',
      List.append_nil] at hp
    exact conv2d_freezeParams_params conv p hp
  · simp only [ConvModule.freezeParams, ConvModule.params, Option.map_some',
      List.mem_append] at hp
    rcases hp with hp | hp
    · exact conv2d_freezeParams_params conv p hp
    · exact norm_freezeParams_params n p hp

/-- `_freeze_parameters` clears every flag of a shortcut branch. -/
theorem short_freezeParams_params (s : Short) :
    ∀ p ∈ s.freezeParams.params, p = false := by
  intro p hp
  cases s <;> exact convModule_freezeParams_params _ p hp

/-- `_freeze_parameters` clears every flag of a `BasicBlock`. -/
theorem basicBlock_freezeParams_params (b : BasicBlock) :
    ∀ p ∈ b.freezeParams.params, p = false := by
  rcases b with ⟨sc, short, a2, b2, act⟩
  intro p hp
  rcases short with _ | s
  · simp only [BasicBlock.freezeParams, BasicBlock.params, Option.map_none',
      List.nil_append, List.mem_append] at hp
    rcases hp with hp | hp
    · exact convModule_freezeParams_params a2 p hp
    · exact convModule_freezeParams_params b2 p hp
  · simp only [BasicBlock.freezeParams, BasicBlock.params, Option.map_some',
      List.mem_append] at hp
    rcases hp with (hp | hp) | hp
    · exact short_freezeParams_params s p hp
    · exact convModule_freezeParams_params a2 p hp
    · exact convModule_freezeParams_params b2 p hp

/-- `_freeze_parameters` clears every flag of a `BottleNeck`. -/
theorem bottleNeck_freezeParams_params (b : BottleNeck) :
    ∀ p ∈ b.freezeParams.params, p = false := by
  rcases b with ⟨a2, b2, c2, sc, short, act⟩
  intro p hp
  rcases short with _ | s
  · simp only [BottleNeck.freezeParams, BottleNeck.params, Option.map_none',
      List.append_nil, List.mem_append] at hp
    rcases hp with (hp | hp) | hp
    · exact convModule_freezeParams_params a2 p hp
    · exact convModule_freezeParams_params b2 p hp
    · exact convModule_freezeParams_params c2 p hp
  · simp only [BottleNeck.freezeParams, BottleNeck.params, Option.map_some',
      List.mem_append] at hp
    rcases hp with ((hp | hp) | hp) | hp
    · exact convModule_freezeParams_params a2 p hp
    · exact convModule_freezeParams_params b2 p hp
    · exact convModule_freezeParams_params c2 p hp
    · exact short_freezeParams_params s p hp

/-- `_freeze_parameters` clears every flag of a block. -/
theorem block_freezeParams_params (blk : Block) :
    ∀ p ∈ blk.freezeParams.params, p = false := by
  intro p hp
  cases blk with
  | basic b => exact basicBlock_freezeParams_params b p hp
  | bottle b => exact bottleNeck_freezeParams_params b p hp

/-- `_freeze_parameters` clears every flag of a stage. -/
theorem blocks_freezeParams_params (s : Blocks) :
    ∀ p ∈ s.freezeParams.params, p = false := by
  intro p hp
  simp only [Blocks.freezeParams, Blocks.params] at hp
  obtain ⟨blk, hblk, hpmem⟩ := List.mem_flatMap.mp hp
  obtain ⟨blk0, _, rfl⟩ := List.mem_map.mp hblk
  exact block_freezeParams_params blk0 p hpmem

/-- Norm freezing only removes parameters: every remaining flag of a
norm layer was already present. -/
theorem norm_freezeNorm_params_sub (n : Norm) :
    ∀ p ∈ n.freezeNorm.params, p ∈ n.params := by
  intro p hp
  cases n <;> simp [Norm.freezeNorm, Norm.params] at hp ⊢

/-- Norm freezing only removes parameters of a `ConvModule`. -/
theorem convModule_freezeNorm_params_sub (m : ConvModule) :
    ∀ p ∈ m.freezeNorm.params, p ∈ m.params := by
  rcases m with ⟨conv, norm, act⟩
  intro p hp
  rcases norm with _ | n
  · exact hp
  · simp only [ConvModule.freezeNorm, ConvModule.params, Option.map_some',
      List.mem_append] at hp ⊢
    rcases hp with hp | hp
    · exact Or.inl hp
    · exact Or.inr (norm_freezeNorm_params_sub n p hp)

/-- Norm freezing only removes parameters of a shortcut branch. -/
theorem short_freezeNorm_params_sub (s : Short) :
    ∀ p ∈ s.freezeNorm.params, p ∈ s.params := by
  intro p hp
  cases s <;> exact convModule_freezeNorm_params_sub _ p hp

/-- Norm freezing only removes parameters of a `BasicBlock`. -/
theorem basicBlock_freezeNorm_params_sub (b : BasicBlock) :
    ∀ p ∈ b.freezeNorm.params, p ∈ b.params := by
  rcases b with ⟨sc, short, a2, b2, act⟩
  intro p hp
  rcases short with _ | s
  · simp only [BasicBlock.freezeNorm, BasicBlock.params, Option.map_none',
      List.nil_append, List.mem_append] at hp ⊢
    rcases hp with hp | hp
    · exact Or.inl (convModule_freezeNorm_params_sub a2 p hp)
    · exact Or.inr (convModule_freezeNorm_params_sub b2 p hp)
  · simp only [BasicBlock.freezeNorm, BasicBlock.params, Option.map_some',
      List.mem_append] at hp ⊢
    rcases hp with (hp | hp) | hp
    · exact Or.inl (Or.inl (short_freezeNorm_params_sub s p hp))
    · exact Or.inl (Or.inr (convModule_freezeNorm_params_sub a2 p hp))
    · exact Or.inr (convModule_freezeNorm_params_sub b2 p hp)

/-- Norm freezing only removes parameters of a `BottleNeck`. -/
theorem bottleNeck_freezeNorm_params_sub (b : BottleNeck) :
    ∀ p ∈ b.freezeNorm.params, p ∈ b.params := by
  rcases b with ⟨a2, b2, c2, sc, short, act⟩
  intro p hp
  rcases short with _ | s
  · simp only [BottleNeck.freezeNorm, BottleNeck.params, Option.map_none',
      List.append_nil, List.mem_append] at hp ⊢
    rcases hp with (hp | hp) | hp
    · exact Or.inl (Or.inl (convModule_freezeNorm_params_sub a2 p hp))
    · exact Or.inl (Or.inr (convModule_freezeNorm_params_sub b2 p hp))
    · exact Or.inr (convModule_freezeNorm_params_sub c2 p hp)
  · simp only [BottleNeck.freezeNorm, BottleNeck.params, Option.map_some',
      List.mem_append] at hp ⊢
    rcases hp with ((hp | hp) | hp) | hp
    · exact Or.inl (Or.inl (Or.inl (convModule_freezeNorm_params_sub a2 p hp)))
    · exact Or.inl (Or.inl (Or.inr (convModule_freezeNorm_params_sub b2 p hp)))
    · exact Or.inl (Or.inr (convModule_freezeNorm_params_sub c2 p hp))
    · exact Or.inr (short_freezeNorm_params_sub s p hp)

/-- Norm freezing only removes parameters of a block. -/
theorem block_freezeNorm_params_sub (blk : Block) :
    ∀ p ∈ blk.freezeNorm.params, p ∈ blk.params := by
  intro p hp
  cases blk with
  | basic b => exact basicBlock_freezeNorm_params_sub b p hp
  | bottle b => exact bottleNeck_freezeNorm_params_sub b p hp

/-- Norm freezing only removes parameters of a stage. -/
theorem blocks_freezeNorm_params_sub (s : Blocks) :
    ∀ p ∈ s.freezeNorm.params, p ∈ s.params := by
  intro p hp
  simp only [Blocks.freezeNorm, Blocks.params] at hp ⊢
  obtain ⟨blk, hblk, hpmem⟩ := List.mem_flatMap.mp hp
  obtain ⟨blk0, hblk0, rfl⟩ := List.mem_map.mp hblk
  exact List.mem_flatMap.mpr ⟨blk0, hblk0,
    block_freezeNorm_params_sub blk0 p hpmem⟩

end Presnet

open Presnet in
/-- C3: with freeze_at >= 0, after init every parameter of the stem
conv1 and of the first min(freeze_at, num_stages) residual stages has
requires_grad False, while the remaining stages are exactly those of the
same construction without freezing (freeze_at = -1); with
freeze_at < 0 the freezing step leaves the network untouched. -/
theorem claim_C3 :
    (∀ (depth : Nat) (variant : String) (num_stages : Nat)
        (return_idx : List Nat) (act_cfg norm_cfg : Option Cfg)
        (freeze_at : Int) (freeze_norm : Bool) (net : PResNet),
      0 ≤ freeze_at →
      PResNet.init depth variant num_stages return_idx act_cfg norm_cfg
          freeze_at freeze_norm = some net →
      (∀ p ∈ stemParams net.conv1, p = false)
      ∧ (∀ i, i < (min freeze_at (num_stages : Int)).toNat →
          ∀ stage, net.res_layers[i]? = some stage →
            ∀ p ∈ stage.params, p = false)
      ∧ (∀ net0, PResNet.init depth variant num_stages return_idx act_cfg
            norm_cfg (-1) freeze_norm = some net0 →
          ∀ i, (min freeze_at (num_stages : Int)).toNat ≤ i →
            net.res_layers[i]? = net0.res_layers[i]?))
    ∧ (∀ (freeze_at : Int) (num_stages : Nat) (net : PResNet),
        freeze_at < 0 →
        PResNet.applyFreezeAt freeze_at num_stages net = net) := by
  constructor
  · intro depth variant num_stages return_idx act_cfg norm_cfg freeze_at
      freeze_norm net hfa hinit
    obtain ⟨b, hb, hnet⟩ := Presnet.init_parts hinit
    have hmidC : (PResNet.applyFreezeAt freeze_at num_stages b).conv1
        = b.conv1.map (fun nc => (nc.1, nc.2.freezeParams)) := by
      unfold PResNet.applyFreezeAt
      rw [if_pos hfa]
    have hmidR : (PResNet.applyFreezeAt freeze_at num_stages b).res_layers
        = freezeFirst (min freeze_at (num_stages : Int)).toNat b.res_layers := by
      unfold PResNet.applyFreezeAt
      rw [if_pos hfa]
    refine ⟨?_, ?_, ?_⟩
    · intro p hp
      cases freeze_norm with
      | false =>
        rw [if_neg (by simp)] at hnet
        rw [hnet, hmidC] at hp
        obtain ⟨nc, hnc, hpm⟩ := List.mem_flatMap.mp hp
        obtain ⟨nc0, _, rfl⟩ := List.mem_map.mp hnc
        exact Presnet.convModule_freezeParams_params nc0.2 p hpm
      | true =>
        rw [if_pos rfl] at hnet
        rw [hnet] at hp
        simp only [PResNet.freezeNorm, stemParams, hmidC, List.map_map] at hp
        obtain ⟨nc, hnc, hpm⟩ := List.mem_flatMap.mp hp
        obtain ⟨nc0, _, rfl⟩ := List.mem_map.mp hnc
        have hsub := Presnet.convModule_freezeNorm_params_sub
          nc0.2.freezeParams p hpm
        exact Presnet.convModule_freezeParams_params nc0.2 p hsub
    · intro i hi stage hstage
      cases freeze_norm with
      | false =>
        rw [if_neg (by simp)] at hnet
        rw [hnet, hmidR, Presnet.freezeFirst_getElem, if_pos hi] at hstage
        obtain ⟨stage0, hs0, hfp⟩ := Option.map_eq_some'.mp hstage
        subst hfp
        exact fun p hp => Presnet.blocks_freezeParams_params stage0 p hp
      | true =>
        rw [if_pos rfl] at hnet
        rw [hnet] at hstage
        simp only [PResNet.freezeNorm, List.getElem?_map] at hstage
        rw [hmidR, Presnet.freezeFirst_getElem, if_pos hi] at hstage
        obtain ⟨s1, hs1, h2⟩ := Option.map_eq_some'.mp hstage
        obtain ⟨s0, hs0, h3⟩ := Option.map_eq_some'.mp hs1
        subst h2
        subst h3
        intro p hp
        have hsub := Presnet.blocks_freezeNorm_params_sub s0.freezeParams p hp
        exact Presnet.blocks_freezeParams_params s0 p hsub
    · intro net0 hinit0 i hik
      obtain ⟨b0, hb0, hnet0⟩ := Presnet.init_parts hinit0
      have hbb : b0 = b := Option.some_inj.mp (hb0.symm.trans hb)
      subst hbb
      have hmid0 : PResNet.applyFreezeAt (-1) num_stages b0 = b0 := by
        unfold PResNet.applyFreezeAt
        rw [if_neg (by decide)]
      rw [hmid0] at hnet0
      have hnotlt : ¬ i < (min freeze_at (num_stages : Int)).toNat :=
        Nat.not_lt.mpr hik
      cases freeze_norm with
      | false =>
        rw [if_neg (by simp)] at hnet hnet0
        rw [hnet, hnet0, hmidR, Presnet.freezeFirst_getElem, if_neg hnotlt]
      | true =>
        rw [if_pos rfl] at hnet hnet0
        rw [hnet, hnet0]
        simp only [PResNet.freezeNorm, List.getElem?_map]
        rw [hmidR, Presnet.freezeFirst_getElem, if_neg hnotlt]
  · intro freeze_at num_stages net hneg
    unfold PResNet.applyFreezeAt
    rw [if_neg (by omega)]

open Presnet in
/-- Witness for C3 at a concrete configuration: with freeze_at 0 and one
stage, min(0, 1) = 0 stages are frozen, so stage 0 is exactly the stage
of the unfrozen (freeze_at -1) construction. -/
theorem claim_C3_witness :
    (PResNet.init 18 "a" 1 [0] none none 0 false).bind
        (fun net => net.res_layers[0]?)
      = (PResNet.init 18 "a" 1 [0] none none (-1) false).bind
        (fun net => net.res_layers[0]?) := by
  cases hE : PResNet.init 18 "a" 1 [0] none none 0 false with
  | none =>
    have h9 : (PResNet.init 18 "a" 1 [0] none none 0 false).isSome := by decide
    rw [hE] at h9
    exact absurd h9 (by simp)
  | some net =>
    cases hE0 : PResNet.init 18 "a" 1 [0] none none (-1) false with
    | none =>
      have h9 : (PResNet.init 18 "a" 1 [0] none none (-1) false).isSome := by decide
      rw [hE0] at h9
      exact absurd h9 (by simp)
    | some net0 =>
      show net.res_layers[0]? = net0.res_layers[0]?
      exact (claim_C3.1 18 "a" 1 [0] none none 0 false net (by decide)
        hE).2.2 net0 hE0 0 (by decide)
